import Mathlib

/-!
Shallow embedding of the one-pic-edit client-side state logic:
the image history (App.tsx), the detection set produced by
`analyzeImageText` (services/geminiService.ts), and the zoom/pan
viewport and edit modal of `EditorOverlay`.

Conventions: TypeScript `number` is modelled as `ℚ` (all arithmetic
the claims touch is exact), `string | null` as `Option String`,
JavaScript `undefined` array reads as `Option`, and the optional
`isEdited?` field as a `Bool` defaulting to `false` (both `undefined`
and `false` are falsy at every use site).
-/

namespace OnePicEdit

/-- Bounding box in the 0..1000 normalized coordinate space
(types.ts, `DetectedText.boundingBox`). -/
structure BoundingBox where
  ymin : ℚ
  xmin : ℚ
  ymax : ℚ
  xmax : ℚ
deriving DecidableEq

/-- A detected text region (types.ts `DetectedText`). -/
structure DetectedText where
  id : String
  text : String
  isEdited : Bool := false
  boundingBox : BoundingBox
  confidence : ℚ
deriving DecidableEq

/-- types.ts `ProcessingState`. -/
structure ProcessingState where
  isAnalyzing : Bool
  isEditing : Bool
  error : Option String
deriving DecidableEq

/-- types.ts `AppState`. `historyIndex` is an `Int` because the code
keeps it at `-1` when no edit snapshot is active. -/
structure AppState where
  originalImage : Option String
  history : List String
  historyIndex : Int
  detectedTexts : List DetectedText
  selectedTextId : Option String
  processing : ProcessingState
deriving DecidableEq

/-- JavaScript `Array.prototype.slice(0, stop)`: a negative `stop`
counts from the end of the array, a `stop` past the end is clamped. -/
def jsSliceEnd (l : List α) (stop : Int) : List α :=
  l.take (if stop < 0 then ((l.length : Int) + stop).toNat else stop.toNat)

/-- App.tsx line 26: `state.historyIndex >= 0 ? state.history[state.historyIndex]
: state.originalImage`. An out-of-range array read yields `none`
(JavaScript `undefined`). -/
def currentImage (s : AppState) : Option String :=
  if 0 ≤ s.historyIndex then s.history.get? s.historyIndex.toNat else s.originalImage

/-- The history push performed by the success branch of `handleEditText`
(App.tsx lines 80-86): truncate with `slice(0, historyIndex + 1)`,
append the snapshot, move the cursor to the new tail. -/
def historyPush (s : AppState) (snapshot : String) : AppState :=
  let newHistory := jsSliceEnd s.history (s.historyIndex + 1) ++ [snapshot]
  { s with history := newHistory, historyIndex := (newHistory.length : Int) - 1 }

/-- App.tsx `handleUndo` (lines 106-110). -/
def handleUndo (s : AppState) : AppState :=
  if 0 ≤ s.historyIndex then { s with historyIndex := s.historyIndex - 1 } else s

/-- App.tsx `handleRedo` (lines 112-116). -/
def handleRedo (s : AppState) : AppState :=
  if s.historyIndex < (s.history.length : Int) - 1 then
    { s with historyIndex := s.historyIndex + 1 }
  else s

/-- Outcome of the awaited `editImageText` call: a returned image part,
a `null` return (no image part in the response), or a thrown error
carrying `err.message`. -/
inductive RenderOutcome where
  | image (data : String)
  | empty
  | failure (message : String)
deriving DecidableEq

/-- The per-region update of App.tsx line 87:
`t.id === id ? { ...t, text: newText, isEdited: true } : t`. -/
def editedRegion (id newText : String) (t : DetectedText) : DetectedText :=
  if t.id == id then { t with text := newText, isEdited := true } else t

/-- App.tsx `handleEditText` (lines 65-104), with the awaited
`editImageText` result supplied as a `RenderOutcome` parameter.
Early-returns when the id has no matching region or no image is loaded;
otherwise sets `isEditing` and clears the error, then commits the
snapshot (success) or records the caught error message (null result is
thrown and caught; `err.message || "Editing failed."`). -/
def handleEditText (s : AppState) (id newText : String) (outcome : RenderOutcome) : AppState :=
  match s.detectedTexts.find? (fun t => t.id == id), s.originalImage with
  | none, _ => s
  | some _, none => s
  | some _, some _ =>
    let s1 : AppState := { s with processing := { s.processing with isEditing := true, error := none } }
    match outcome with
    | RenderOutcome.image result =>
      let newHistory := jsSliceEnd s1.history (s1.historyIndex + 1) ++ [result]
      { s1 with
        history := newHistory
        historyIndex := (newHistory.length : Int) - 1
        detectedTexts := s1.detectedTexts.map (editedRegion id newText)
        processing := { s1.processing with isEditing := false } }
    | RenderOutcome.empty =>
      { s1 with processing :=
          { s1.processing with
            isEditing := false
            error := some "Editing failed. The AI could not generate the requested area." } }
    | RenderOutcome.failure msg =>
      { s1 with processing :=
          { s1.processing with
            isEditing := false
            error := some (if msg == "" then "Editing failed." else msg) } }

/-- Decimal rendering of a natural number, as JavaScript template
interpolation renders the detection index. -/
def natDecimal (n : ℕ) : String :=
  if n = 0 then "0" else (((Nat.digits 10 n).map Nat.digitChar).reverse).asString

/-- One raw detection item of the AI response consumed by
`analyzeImageText` (geminiService.ts): `text` plus a 4-entry
`[ymin, xmin, ymax, xmax]` bounding box. -/
structure RawDetection where
  text : String
  boundingBox : BoundingBox
deriving DecidableEq

/-- geminiService.ts `analyzeImageText`, lines 62-72: the mapping of the
parsed response onto `DetectedText` values, assigning ids by position. -/
def analyzeImageText (raw : List RawDetection) : List DetectedText :=
  raw.enum.map fun p =>
    { id := "text-" ++ natDecimal p.1
      text := p.2.text
      boundingBox := p.2.boundingBox
      confidence := 1 }

/-- App.tsx `handleFileUpload`, synchronous part (lines 35-42): reset
history and detections, record the new baseline, start analyzing. -/
def uploadStart (s : AppState) (base64 : String) : AppState :=
  { s with
    originalImage := some base64
    history := []
    historyIndex := -1
    detectedTexts := []
    processing := { s.processing with isAnalyzing := true, error := none } }

/-- App.tsx `handleFileUpload`, success continuation (lines 46-50):
wholesale replacement of the detection set. -/
def analyzeSuccess (s : AppState) (results : List DetectedText) : AppState :=
  { s with
    detectedTexts := results
    processing := { s.processing with isAnalyzing := false } }

/-- A full successful detection pass: upload reset followed by the
wholesale replacement with the freshly id-assigned regions. -/
def detectionPass (s : AppState) (base64 : String) (raw : List RawDetection) : AppState :=
  analyzeSuccess (uploadStart s base64) (analyzeImageText raw)

/-- Operation language for the image history store. -/
inductive HistOp where
  | push (snapshot : String)
  | undo
  | redo
deriving DecidableEq

/-- Apply one history operation to the application state. -/
def histStep (s : AppState) (op : HistOp) : AppState :=
  match op with
  | HistOp.push snapshot => historyPush s snapshot
  | HistOp.undo => handleUndo s
  | HistOp.redo => handleRedo s

/-- Run a sequence of history operations. -/
def runHist (s : AppState) (ops : List HistOp) : AppState := ops.foldl histStep s

/-- Zoom/pan state of `EditorOverlay` (scale, offset, isPanning, startPan). -/
structure Viewport where
  scale : ℚ
  offset : ℚ × ℚ
  isPanning : Bool
  startPan : ℚ × ℚ
deriving DecidableEq

/-- Core of `handleWheel` (EditorOverlay lines 262-265) with the scale
increment abstracted: `nextScale = min(max(scale + delta, 1), 5)`, and
the offset resets to the origin when the result lands exactly on 1.
An actual wheel tick uses `delta = ±0.15`. -/
def zoomBy (v : Viewport) (delta : ℚ) : Viewport :=
  let nextScale := min (max (v.scale + delta) 1) 5
  { v with scale := nextScale, offset := if nextScale = 1 then (0, 0) else v.offset }

/-- EditorOverlay `handleWheel` (lines 258-267): gated on processing
flags and on the ctrl/meta modifier; the tick direction comes from the
sign of `deltaY`. -/
def handleWheel (v : Viewport) (isProcessing isAnalyzing ctrlOrMeta : Bool) (deltaY : ℚ) : Viewport :=
  if isProcessing ∨ isAnalyzing then v
  else if ctrlOrMeta then zoomBy v (if 0 < deltaY then -0.15 else 0.15) else v

/-- EditorOverlay `zoomIn` (line 269). -/
def zoomIn (v : Viewport) : Viewport := { v with scale := min (v.scale + 0.3) 5 }

/-- EditorOverlay `zoomOut` (lines 270-274). -/
def zoomOut (v : Viewport) : Viewport :=
  let nextScale := max (v.scale - 0.3) 1
  { v with scale := nextScale, offset := if nextScale = 1 then (0, 0) else v.offset }

/-- EditorOverlay `resetZoom` (lines 275-278). -/
def resetZoom (v : Viewport) : Viewport := { v with scale := 1, offset := (0, 0) }

/-- EditorOverlay `handleMouseDown` (lines 280-284): begin a pan only
when zoomed in and not busy; remember the grab point. -/
def handleMouseDown (v : Viewport) (isProcessing isAnalyzing : Bool) (client : ℚ × ℚ) : Viewport :=
  if v.scale ≤ 1 ∨ isProcessing ∨ isAnalyzing then v
  else { v with
         isPanning := true
         startPan := (client.1 - v.offset.1, client.2 - v.offset.2) }

/-- EditorOverlay `handleMouseMove` (lines 286-292): drag-translate the
offset while a pan is active and the view is zoomed in. -/
def handleMouseMove (v : Viewport) (client : ℚ × ℚ) : Viewport :=
  if ¬v.isPanning ∨ v.scale ≤ 1 then v
  else { v with offset := (client.1 - v.startPan.1, client.2 - v.startPan.2) }

/-- EditorOverlay `handleMouseUp` (lines 294-296). -/
def handleMouseUp (v : Viewport) : Viewport := { v with isPanning := false }

/-- The local state of the editor modal in `EditorOverlay`. -/
structure OverlayState where
  editingId : Option String
  tempText : String
  selectedFont : String
  selectedColor : String
  customColor : String
  useStroke : Bool
  strokeColor : String
  strokeWidth : ℚ
  fontSize : ℚ
deriving DecidableEq

/-- The argument tuple `handleSubmit` passes to `onEditText`. -/
structure EditCall where
  id : String
  newText : String
  font : String
  color : String
  strokeColor : String
  strokeWidth : ℚ
  fontSize : ℚ
deriving DecidableEq

/-- EditorOverlay `handleSubmit` (lines 241-256): guarded on
`editingId && tempText` (JavaScript truthiness: a string is truthy iff
non-empty); on success it resolves the color sentinel and the stroke
options, emits the `onEditText` call, and closes the modal. -/
def handleSubmit (o : OverlayState) : Option EditCall × OverlayState :=
  match o.editingId with
  | some editId =>
    if editId ≠ "" ∧ o.tempText ≠ "" then
      let colorToPass := if o.selectedColor == "original" then "original" else o.customColor
      (some { id := editId
              newText := o.tempText
              font := o.selectedFont
              color := colorToPass
              strokeColor := if o.useStroke then o.strokeColor else "none"
              strokeWidth := if o.useStroke then o.strokeWidth else 0
              fontSize := o.fontSize },
       { o with editingId := none })
    else (none, o)
  | none => (none, o)

/-- The positional CSS fields of an overlay box (percent values). -/
structure BoxStyle where
  top : ℚ
  left : ℚ
  width : ℚ
  height : ℚ
deriving DecidableEq

/-- The inline style of a detection overlay box (EditorOverlay lines
370-375): each bounding-box value divided by 10, as a percentage. -/
def overlayBoxStyle (item : DetectedText) : BoxStyle :=
  { top := item.boundingBox.ymin / 10
    left := item.boundingBox.xmin / 10
    width := (item.boundingBox.xmax - item.boundingBox.xmin) / 10
    height := (item.boundingBox.ymax - item.boundingBox.ymin) / 10 }

/-- The computed fields of `getPreviewStyle` (EditorOverlay lines
304-334) that the embedding tracks: the four positional percentages,
the relative font size, and the two style toggles. -/
structure PreviewStyle where
  top : ℚ
  left : ℚ
  width : ℚ
  height : ℚ
  fontSizePct : ℚ
  colorTransparent : Bool
  hasTextShadow : Bool
deriving DecidableEq

/-- EditorOverlay `getPreviewStyle` (lines 304-334). -/
def getPreviewStyle (o : OverlayState) (item : DetectedText) : PreviewStyle :=
  { top := item.boundingBox.ymin / 10
    left := item.boundingBox.xmin / 10
    width := (item.boundingBox.xmax - item.boundingBox.xmin) / 10
    height := (item.boundingBox.ymax - item.boundingBox.ymin) / 10
    fontSizePct := o.fontSize / 100 * 80
    colorTransparent := o.selectedColor == "original"
    hasTextShadow := o.useStroke && decide (0 < o.strokeWidth) }

/-- The rendered image+overlay layer (EditorOverlay lines 348-401): one
CSS transform built from the viewport is applied to the whole layer,
while each box style is computed from its bounding box alone. -/
structure LayerRender where
  transformOffset : ℚ × ℚ
  transformScale : ℚ
  boxStyles : List BoxStyle
deriving DecidableEq

/-- Build the rendered layer from the viewport and the detection set. -/
def renderLayer (v : Viewport) (detectedTexts : List DetectedText) : LayerRender :=
  { transformOffset := v.offset
    transformScale := v.scale
    boxStyles := detectedTexts.map overlayBoxStyle }

/-- The history-store invariant of the spec:
`-1 <= historyIndex < length(sequence)`. -/
def HistInv (s : AppState) : Prop :=
  -1 ≤ s.historyIndex ∧ s.historyIndex ≤ (s.history.length : Int) - 1

theorem jsSliceEnd_of_nonneg (l : List α) (stop : Int) (h : 0 ≤ stop) :
    jsSliceEnd l stop = l.take stop.toNat := by
  rw [jsSliceEnd, if_neg (not_lt.mpr h)]

/-- Claim C1: a push truncates the stored sequence to positions below
`historyIndex + 1`, appends the new snapshot, and moves the cursor to
the new last position; concretely, from history `[a, b, c]` at index 2,
`undo` then `push d` yields `[a, b, d]` at index 2, after which `redo`
is a no-op, so the redo branch `c` is discarded. -/
theorem push_after_undo_discards_redo_branch (s : AppState) (a b c d : String)
    (hh : s.history = [a, b, c]) (hi : s.historyIndex = 2) :
    (historyPush s d).history = s.history.take (s.historyIndex + 1).toNat ++ [d] ∧
    (historyPush s d).historyIndex = ((historyPush s d).history.length : Int) - 1 ∧
    (handleUndo s).historyIndex = 1 ∧
    (historyPush (handleUndo s) d).history = [a, b, d] ∧
    (historyPush (handleUndo s) d).historyIndex = 2 ∧
    handleRedo (historyPush (handleUndo s) d) = historyPush (handleUndo s) d := by
  refine ⟨?_, ?_, ?_, ?_, ?_, ?_⟩ <;>
    simp [historyPush, handleUndo, handleRedo, jsSliceEnd, hh, hi]

theorem push_after_undo_discards_redo_branch_witness :
    (historyPush (handleUndo
      { originalImage := some "base"
        history := ["A", "B", "C"]
        historyIndex := 2
        detectedTexts := []
        selectedTextId := none
        processing := { isAnalyzing := false, isEditing := false, error := none } }) "D").history
        = ["A", "B", "D"] ∧
    (historyPush (handleUndo
      { originalImage := some "base"
        history := ["A", "B", "C"]
        historyIndex := 2
        detectedTexts := []
        selectedTextId := none
        processing := { isAnalyzing := false, isEditing := false, error := none } }) "D").historyIndex
        = 2 := by
  have h := push_after_undo_discards_redo_branch
    { originalImage := some "base"
      history := ["A", "B", "C"]
      historyIndex := 2
      detectedTexts := []
      selectedTextId := none
      processing := { isAnalyzing := false, isEditing := false, error := none } }
    "A" "B" "C" "D" rfl rfl
  exact ⟨h.2.2.2.1, h.2.2.2.2.1⟩

/-- Claim C8: calling the edit handler with an id that is absent from
the current detection set is a complete no-op: the whole application
state is returned unchanged, whatever the render outcome. -/
theorem markEdited_absent_id_noop (s : AppState) (id newText : String)
    (outcome : RenderOutcome)
    (h : s.detectedTexts.find? (fun t => t.id == id) = none) :
    handleEditText s id newText outcome = s := by
  unfold handleEditText
  rw [h]

theorem markEdited_absent_id_noop_witness :
    handleEditText
      { originalImage := some "base"
        history := []
        historyIndex := -1
        detectedTexts := []
        selectedTextId := none
        processing := { isAnalyzing := false, isEditing := false, error := none } }
      "text-0" "new" RenderOutcome.empty
      = { originalImage := some "base"
          history := []
          historyIndex := -1
          detectedTexts := []
          selectedTextId := none
          processing := { isAnalyzing := false, isEditing := false, error := none } } :=
  markEdited_absent_id_noop _ "text-0" "new" RenderOutcome.empty rfl

/-- Claim C10: `undo` and `redo` modify only `historyIndex`: the history
sequence, the detected regions, the baseline image, the selection and
the processing flags are all unchanged. -/
theorem undo_redo_modify_only_historyIndex (s : AppState) :
    (handleUndo s).history = s.history ∧
    (handleUndo s).detectedTexts = s.detectedTexts ∧
    (handleUndo s).originalImage = s.originalImage ∧
    (handleUndo s).selectedTextId = s.selectedTextId ∧
    (handleUndo s).processing = s.processing ∧
    (handleRedo s).history = s.history ∧
    (handleRedo s).detectedTexts = s.detectedTexts ∧
    (handleRedo s).originalImage = s.originalImage ∧
    (handleRedo s).selectedTextId = s.selectedTextId ∧
    (handleRedo s).processing = s.processing := by
  unfold handleUndo handleRedo
  refine ⟨?_, ?_, ?_, ?_, ?_, ?_, ?_, ?_, ?_, ?_⟩ <;> (split <;> rfl)

/-- Claim C9: submitting the edit form is guarded on a selected region
and a non-empty draft; when the guard fails no call is emitted and the
modal state is unchanged, and an emitted call always carries the
selected id and the non-empty draft text. -/
theorem submit_guard_nonempty_draft (o : OverlayState) :
    ((o.editingId = none ∨ o.tempText = "") → handleSubmit o = (none, o)) ∧
    (∀ call : EditCall, (handleSubmit o).1 = some call →
      ∃ editId, o.editingId = some editId ∧ editId ≠ "" ∧ o.tempText ≠ "" ∧
        call.id = editId ∧ call.newText = o.tempText) := by
  constructor
  · intro h
    cases he : o.editingId with
    | none => simp [handleSubmit, he]
    | some editId =>
      rcases h with h | h
      · rw [he] at h; exact absurd h (by simp)
      · simp [handleSubmit, he, h]
  · intro call hc
    cases he : o.editingId with
    | none => simp [handleSubmit, he] at hc
    | some editId =>
      simp only [handleSubmit, he] at hc
      by_cases hg : editId ≠ "" ∧ o.tempText ≠ ""
      · rw [if_pos hg] at hc
        have h2 := Option.some.inj hc
        exact ⟨editId, rfl, hg.1, hg.2, by rw [← h2], by rw [← h2]⟩
      · rw [if_neg hg] at hc
        exact Option.noConfusion hc

theorem submit_guard_nonempty_draft_witness :
    handleSubmit
      { editingId := none
        tempText := "draft"
        selectedFont := "original"
        selectedColor := "original"
        customColor := "#000000"
        useStroke := false
        strokeColor := "#ffffff"
        strokeWidth := 2
        fontSize := 100 }
      = (none,
         { editingId := none
           tempText := "draft"
           selectedFont := "original"
           selectedColor := "original"
           customColor := "#000000"
           useStroke := false
           strokeColor := "#ffffff"
           strokeWidth := 2
           fontSize := 100 }) :=
  (submit_guard_nonempty_draft _).1 (Or.inl rfl)

theorem editedRegion_id (id newText : String) (t : DetectedText) :
    (editedRegion id newText t).id = t.id := by
  unfold editedRegion; split <;> rfl

/-- Claim C2: a submitted edit whose render call returns no image sets a
user-facing error and leaves the history, the cursor and the detection
set untouched; a render call returning a snapshot appends exactly that
one snapshot (after the redo-branch truncation), moves the cursor to
the new tail, and marks the target region edited with the new text. -/
theorem edit_submission_commit_or_error (s : AppState) (id newText : String)
    (target : DetectedText)
    (hfind : s.detectedTexts.find? (fun t => t.id == id) = some target)
    (himg : s.originalImage.isSome) :
    ((handleEditText s id newText RenderOutcome.empty).processing.error.isSome ∧
     (handleEditText s id newText RenderOutcome.empty).history = s.history ∧
     (handleEditText s id newText RenderOutcome.empty).historyIndex = s.historyIndex ∧
     (handleEditText s id newText RenderOutcome.empty).detectedTexts = s.detectedTexts) ∧
    (∀ r : String,
      (handleEditText s id newText (RenderOutcome.image r)).history
        = jsSliceEnd s.history (s.historyIndex + 1) ++ [r] ∧
      (handleEditText s id newText (RenderOutcome.image r)).historyIndex
        = (((handleEditText s id newText (RenderOutcome.image r)).history.length : Int)) - 1 ∧
      (handleEditText s id newText (RenderOutcome.image r)).detectedTexts.find?
          (fun t => t.id == id)
        = some { target with text := newText, isEdited := true }) := by
  obtain ⟨img, himg⟩ := Option.isSome_iff_exists.mp himg
  have hmap : (fun t : DetectedText => t.id == id) ∘ editedRegion id newText
      = fun t : DetectedText => t.id == id := by
    funext t
    simp [Function.comp, editedRegion_id]
  have htarget := List.find?_some hfind
  constructor
  · simp [handleEditText, hfind, himg]
  · intro r
    refine ⟨?_, ?_, ?_⟩
    · simp [handleEditText, hfind, himg]
    · simp [handleEditText, hfind, himg]
    · simp only [handleEditText, hfind, himg]
      rw [List.find?_map, hmap, hfind]
      simp [editedRegion, htarget]

theorem edit_submission_commit_or_error_witness :
    ((handleEditText
        { originalImage := some "base"
          history := []
          historyIndex := -1
          detectedTexts := [{ id := "text-0", text := "old", boundingBox := ⟨1, 2, 3, 4⟩, confidence := 1 }]
          selectedTextId := none
          processing := { isAnalyzing := false, isEditing := false, error := none } }
        "text-0" "new" RenderOutcome.empty).processing.error.isSome ∧
     (handleEditText
        { originalImage := some "base"
          history := []
          historyIndex := -1
          detectedTexts := [{ id := "text-0", text := "old", boundingBox := ⟨1, 2, 3, 4⟩, confidence := 1 }]
          selectedTextId := none
          processing := { isAnalyzing := false, isEditing := false, error := none } }
        "text-0" "new" RenderOutcome.empty).history = [] ∧
     (handleEditText
        { originalImage := some "base"
          history := []
          historyIndex := -1
          detectedTexts := [{ id := "text-0", text := "old", boundingBox := ⟨1, 2, 3, 4⟩, confidence := 1 }]
          selectedTextId := none
          processing := { isAnalyzing := false, isEditing := false, error := none } }
        "text-0" "new" RenderOutcome.empty).historyIndex = -1 ∧
     (handleEditText
        { originalImage := some "base"
          history := []
          historyIndex := -1
          detectedTexts := [{ id := "text-0", text := "old", boundingBox := ⟨1, 2, 3, 4⟩, confidence := 1 }]
          selectedTextId := none
          processing := { isAnalyzing := false, isEditing := false, error := none } }
        "text-0" "new" RenderOutcome.empty).detectedTexts
        = [{ id := "text-0", text := "old", boundingBox := ⟨1, 2, 3, 4⟩, confidence := 1 }]) ∧
    (handleEditText
        { originalImage := some "base"
          history := []
          historyIndex := -1
          detectedTexts := [{ id := "text-0", text := "old", boundingBox := ⟨1, 2, 3, 4⟩, confidence := 1 }]
          selectedTextId := none
          processing := { isAnalyzing := false, isEditing := false, error := none } }
        "text-0" "new" (RenderOutcome.image "snap")).detectedTexts.find? (fun t => t.id == "text-0")
      = some { id := "text-0", text := "new", isEdited := true, boundingBox := ⟨1, 2, 3, 4⟩, confidence := 1 } := by
  have h := edit_submission_commit_or_error
    { originalImage := some "base"
      history := []
      historyIndex := -1
      detectedTexts := [{ id := "text-0", text := "old", boundingBox := ⟨1, 2, 3, 4⟩, confidence := 1 }]
      selectedTextId := none
      processing := { isAnalyzing := false, isEditing := false, error := none } }
    "text-0" "new"
    { id := "text-0", text := "old", boundingBox := ⟨1, 2, 3, 4⟩, confidence := 1 }
    rfl rfl
  exact ⟨h.1, (h.2 "snap").2.2⟩

theorem histStep_originalImage (s : AppState) (op : HistOp) :
    (histStep s op).originalImage = s.originalImage := by
  cases op with
  | push x => rfl
  | undo => simp only [histStep, handleUndo]; split <;> rfl
  | redo => simp only [histStep, handleRedo]; split <;> rfl

theorem runHist_originalImage (s : AppState) (ops : List HistOp) :
    (runHist s ops).originalImage = s.originalImage := by
  induction ops generalizing s with
  | nil => rfl
  | cons op ops ih => exact (ih (histStep s op)).trans (histStep_originalImage s op)

theorem histStep_inv (s : AppState) (op : HistOp) (h : HistInv s) :
    HistInv (histStep s op) := by
  obtain ⟨h1, h2⟩ := h
  cases op with
  | push x =>
    unfold HistInv
    simp only [histStep, historyPush]
    constructor <;> omega
  | undo =>
    unfold HistInv
    by_cases hc : 0 ≤ s.historyIndex
    · simp only [histStep, handleUndo, if_pos hc]
      constructor <;> omega
    · simp only [histStep, handleUndo, if_neg hc]
      constructor <;> omega
  | redo =>
    unfold HistInv
    by_cases hc : s.historyIndex < (s.history.length : Int) - 1
    · simp only [histStep, handleRedo, if_pos hc]
      constructor <;> omega
    · simp only [histStep, handleRedo, if_neg hc]
      constructor <;> omega

theorem runHist_inv (s : AppState) (ops : List HistOp) (h : HistInv s) :
    HistInv (runHist s ops) := by
  induction ops generalizing s with
  | nil => exact h
  | cons op ops ih => exact ih (histStep s op) (histStep_inv s op h)

/-- Claim C3: starting from a freshly reset history, after any sequence
of push, undo and redo operations the cursor stays in the interval from
-1 to length - 1, the current image is the snapshot stored at the
cursor whenever the cursor is non-negative, and it is the (unchanged)
original baseline whenever the cursor is -1. -/
theorem history_invariant_all_op_sequences (s0 : AppState)
    (h1 : s0.history = []) (h2 : s0.historyIndex = -1) (ops : List HistOp) :
    (-1 ≤ (runHist s0 ops).historyIndex ∧
     (runHist s0 ops).historyIndex ≤ ((runHist s0 ops).history.length : Int) - 1) ∧
    (0 ≤ (runHist s0 ops).historyIndex →
      ∃ snap, (runHist s0 ops).history.get? (runHist s0 ops).historyIndex.toNat = some snap ∧
        currentImage (runHist s0 ops) = some snap) ∧
    ((runHist s0 ops).historyIndex = -1 →
      currentImage (runHist s0 ops) = (runHist s0 ops).originalImage ∧
      (runHist s0 ops).originalImage = s0.originalImage) := by
  have hinv : HistInv (runHist s0 ops) :=
    runHist_inv s0 ops ⟨by rw [h2], by rw [h1, h2]; simp⟩
  obtain ⟨ha, hb⟩ := hinv
  refine ⟨⟨ha, hb⟩, ?_, ?_⟩
  · intro hge
    have hlt : (runHist s0 ops).historyIndex.toNat < (runHist s0 ops).history.length := by
      omega
    refine ⟨(runHist s0 ops).history.get ⟨_, hlt⟩, List.get?_eq_get hlt, ?_⟩
    rw [currentImage, if_pos hge, List.get?_eq_get hlt]
  · intro heq
    refine ⟨?_, runHist_originalImage s0 ops⟩
    rw [currentImage, if_neg (by omega)]

theorem history_invariant_all_op_sequences_witness :
    -1 ≤ (runHist
      { originalImage := some "base"
        history := []
        historyIndex := -1
        detectedTexts := []
        selectedTextId := none
        processing := { isAnalyzing := false, isEditing := false, error := none } }
      [HistOp.push "a", HistOp.undo]).historyIndex ∧
    currentImage (runHist
      { originalImage := some "base"
        history := []
        historyIndex := -1
        detectedTexts := []
        selectedTextId := none
        processing := { isAnalyzing := false, isEditing := false, error := none } }
      [HistOp.push "a", HistOp.undo]) = some "base" := by
  have h := history_invariant_all_op_sequences
    { originalImage := some "base"
      history := []
      historyIndex := -1
      detectedTexts := []
      selectedTextId := none
      processing := { isAnalyzing := false, isEditing := false, error := none } }
    rfl rfl [HistOp.push "a", HistOp.undo]
  refine ⟨h.1.1, ?_⟩
  have h2 := h.2.2 (by decide)
  rw [h2.1, h2.2]

theorem zoomBy_scale_le (v : Viewport) (delta : ℚ) : (zoomBy v delta).scale ≤ 5 :=
  min_le_right _ _

theorem zoomBy_scale_ge (v : Viewport) (delta : ℚ) : 1 ≤ (zoomBy v delta).scale :=
  le_min (le_max_right _ _) (by norm_num)

theorem foldl_zoomBy_le (v : Viewport) (deltas : List ℚ) (h : v.scale ≤ 5) :
    (deltas.foldl zoomBy v).scale ≤ 5 := by
  induction deltas generalizing v with
  | nil => exact h
  | cons d ds ih => exact ih (zoomBy v d) (zoomBy_scale_le v d)

/-- Claim C4: every zoom adjustment clamps the resulting scale to the
interval from 1 to 5; a +100 increment from scale 1 gives exactly 5, a
-100 increment from scale 5 gives exactly 1 with the offset reset to
the origin, any sequence of increments keeps the scale at most 5, and
whenever the resulting scale lands exactly on 1 the offset resets. -/
theorem zoom_clamps_scale_and_resets_offset (v : Viewport) (delta : ℚ) (deltas : List ℚ) :
    1 ≤ (zoomBy v delta).scale ∧ (zoomBy v delta).scale ≤ 5 ∧
    (v.scale = 1 → (zoomBy v 100).scale = 5) ∧
    (v.scale = 5 → (zoomBy v (-100)).scale = 1 ∧ (zoomBy v (-100)).offset = (0, 0)) ∧
    ((zoomBy v delta).scale = 1 → (zoomBy v delta).offset = (0, 0)) ∧
    (deltas ≠ [] → (deltas.foldl zoomBy v).scale ≤ 5) ∧
    (1 ≤ v.scale → 1 ≤ (zoomIn v).scale ∧ (zoomIn v).scale ≤ 5) ∧
    (1 ≤ (zoomOut v).scale ∧ (v.scale ≤ 5 → (zoomOut v).scale ≤ 5) ∧
      ((zoomOut v).scale = 1 → (zoomOut v).offset = (0, 0))) := by
  refine ⟨zoomBy_scale_ge v delta, zoomBy_scale_le v delta, ?_, ?_, ?_, ?_, ?_, ?_, ?_, ?_⟩
  · intro h
    simp only [zoomBy, h]
    rw [show ((1 : ℚ) + 100) = 101 by norm_num, max_eq_left (by norm_num),
      min_eq_right (by norm_num)]
  · intro h
    have hs : (zoomBy v (-100)).scale = 1 := by
      simp only [zoomBy, h]
      rw [show ((5 : ℚ) + -100) = -95 by norm_num, max_eq_right (by norm_num),
        min_eq_left (by norm_num)]
    refine ⟨hs, ?_⟩
    simp only [zoomBy] at hs ⊢
    rw [if_pos hs]
  · intro h
    simp only [zoomBy] at h ⊢
    rw [if_pos h]
  · intro hne
    cases deltas with
    | nil => exact absurd rfl hne
    | cons d ds => exact foldl_zoomBy_le (zoomBy v d) ds (zoomBy_scale_le v d)
  · intro hv
    constructor
    · exact le_min (by linarith) (by norm_num)
    · exact min_le_right _ _
  · exact le_max_right _ _
  · intro hv
    exact max_le (by linarith) (by norm_num)
  · intro h
    simp only [zoomOut] at h ⊢
    rw [if_pos h]

theorem zoom_clamps_scale_and_resets_offset_witness :
    (zoomBy ⟨1, (2, 3), false, (0, 0)⟩ 100).scale = 5 ∧
    (zoomBy ⟨5, (2, 3), false, (0, 0)⟩ (-100)).scale = 1 ∧
    (zoomBy ⟨5, (2, 3), false, (0, 0)⟩ (-100)).offset = (0, 0) := by
  have h1 := zoom_clamps_scale_and_resets_offset ⟨1, (2, 3), false, (0, 0)⟩ 100 []
  have h2 := zoom_clamps_scale_and_resets_offset ⟨5, (2, 3), false, (0, 0)⟩ (-100) []
  exact ⟨h1.2.2.1 rfl, (h2.2.2.2.1 rfl).1, (h2.2.2.2.1 rfl).2⟩

/-- Claim C5: panning is permitted only while the scale exceeds 1.
While a pan begun at scale above 1 is active, the offset after a move
equals pointerCurrent - pointerStart + offsetAtPanStart; at scale
exactly 1 none of the pan handlers ever changes the offset. -/
theorem pan_requires_scale_gt_one (v : Viewport) (pointerStart pointerCurrent : ℚ × ℚ)
    (hscale : 1 < v.scale) :
    (handleMouseMove (handleMouseDown v false false pointerStart) pointerCurrent).offset
      = (pointerCurrent.1 - pointerStart.1 + v.offset.1,
         pointerCurrent.2 - pointerStart.2 + v.offset.2) ∧
    (∀ w : Viewport, ∀ p a : Bool, w.scale = 1 →
      (handleMouseDown w p a pointerStart).offset = w.offset ∧
      (handleMouseMove w pointerCurrent).offset = w.offset ∧
      (handleMouseUp w).offset = w.offset) := by
  have h1 : ¬v.scale ≤ 1 := not_le.mpr hscale
  constructor
  · simp only [handleMouseDown, handleMouseMove]
    rw [if_neg (by simp [h1])]
    rw [if_neg (by simp [h1])]
    simp [Prod.ext_iff]
    constructor <;> ring
  · intro w p a hw
    refine ⟨?_, ?_, rfl⟩
    · rw [handleMouseDown, if_pos (Or.inl (le_of_eq hw))]
    · rw [handleMouseMove, if_pos (Or.inr (le_of_eq hw))]

theorem pan_requires_scale_gt_one_witness :
    (handleMouseMove (handleMouseDown ⟨2, (3, 4), false, (0, 0)⟩ false false (10, 20))
        (14, 25)).offset
      = (14 - 10 + 3, 25 - 20 + 4) ∧
    (handleMouseMove ⟨1, (3, 4), true, (0, 0)⟩ (14, 25)).offset = (3, 4) := by
  have h := pan_requires_scale_gt_one ⟨2, (3, 4), false, (0, 0)⟩ (10, 20) (14, 25) (by norm_num)
  exact ⟨h.1, (h.2 ⟨1, (3, 4), true, (0, 0)⟩ false false rfl).2.1⟩

/-- Claim C6: the bounding-box-to-screen-percentage conversion is the
exact linear map dividing each value by 10: the concrete box with ymin
100, xmin 200, ymax 150, xmax 400 maps to top 10, left 20, width 20,
height 5 percent; the preview style and the overlay box style agree on
all four positional fields for every box; and the rendered box styles
are independent of the viewport, whose transform applies to the whole
layer. -/
theorem bounding_box_percent_conversion (o : OverlayState) (item : DetectedText)
    (v w : Viewport) (ts : List DetectedText) :
    overlayBoxStyle
        { id := "text-0", text := "t", boundingBox := ⟨100, 200, 150, 400⟩, confidence := 1 }
      = { top := 10, left := 20, width := 20, height := 5 } ∧
    ((overlayBoxStyle item).top = item.boundingBox.ymin / 10 ∧
     (overlayBoxStyle item).left = item.boundingBox.xmin / 10 ∧
     (overlayBoxStyle item).width = (item.boundingBox.xmax - item.boundingBox.xmin) / 10 ∧
     (overlayBoxStyle item).height = (item.boundingBox.ymax - item.boundingBox.ymin) / 10) ∧
    ((getPreviewStyle o item).top = (overlayBoxStyle item).top ∧
     (getPreviewStyle o item).left = (overlayBoxStyle item).left ∧
     (getPreviewStyle o item).width = (overlayBoxStyle item).width ∧
     (getPreviewStyle o item).height = (overlayBoxStyle item).height) ∧
    (renderLayer v ts).boxStyles = (renderLayer w ts).boxStyles := by
  refine ⟨?_, ⟨rfl, rfl, rfl, rfl⟩, ⟨rfl, rfl, rfl, rfl⟩, rfl⟩
  simp [overlayBoxStyle]
  norm_num

theorem digitChar_inj_lt (a b : ℕ) (ha : a < 10) (hb : b < 10)
    (h : Nat.digitChar a = Nat.digitChar b) : a = b := by
  have key : ∀ x y : Fin 10, Nat.digitChar x = Nat.digitChar y → (x : ℕ) = y := by decide
  exact key ⟨a, ha⟩ ⟨b, hb⟩ h

theorem map_digitChar_inj : ∀ (l1 l2 : List ℕ), (∀ d ∈ l1, d < 10) → (∀ d ∈ l2, d < 10) →
    l1.map Nat.digitChar = l2.map Nat.digitChar → l1 = l2
  | [], [], _, _, _ => rfl
  | [], _ :: _, _, _, h => by simp at h
  | _ :: _, [], _, _, h => by simp at h
  | a :: as, b :: bs, h1, h2, h => by
    simp only [List.map_cons, List.cons.injEq] at h
    have hab := digitChar_inj_lt a b (h1 a (List.mem_cons_self a as))
      (h2 b (List.mem_cons_self b bs)) h.1
    have htl := map_digitChar_inj as bs (fun d hd => h1 d (List.mem_cons_of_mem a hd))
      (fun d hd => h2 d (List.mem_cons_of_mem b hd)) h.2
    rw [hab, htl]

theorem string_data_append (a b : String) : (a ++ b).data = a.data ++ b.data := by
  cases a; cases b; rfl

theorem string_data_ext (a b : String) (h : a.data = b.data) : a = b := by
  cases a; cases b; exact congrArg String.mk h

theorem digits_asString_ne_zero_str (n : ℕ) (hn : n ≠ 0) :
    ((Nat.digits 10 n).map Nat.digitChar).reverse.asString ≠ "0" := by
  intro h
  have hd : ((Nat.digits 10 n).map Nat.digitChar).reverse = ['0'] :=
    congrArg String.data h
  have h3 : (Nat.digits 10 n).map Nat.digitChar = ['0'] := by
    have := congrArg List.reverse hd
    simpa using this
  have h4 : Nat.digits 10 n = [0] := by
    cases hdig : Nat.digits 10 n with
    | nil => rw [hdig] at h3; simp at h3
    | cons d ds =>
      rw [hdig] at h3
      simp only [List.map_cons, List.cons.injEq, List.map_eq_nil_iff] at h3
      have hd10 : d < 10 :=
        Nat.digits_lt_base (by norm_num) (hdig ▸ List.mem_cons_self d ds)
      have hd0 : d = 0 := digitChar_inj_lt d 0 hd10 (by norm_num) (by rw [h3.1]; rfl)
      rw [hd0, h3.2]
  have h5 := Nat.ofDigits_digits 10 n
  rw [h4] at h5
  simp [Nat.ofDigits] at h5
  exact hn h5.symm

theorem natDecimal_inj : Function.Injective natDecimal := by
  intro m n h
  by_cases hm : m = 0 <;> by_cases hn : n = 0
  · rw [hm, hn]
  · rw [natDecimal, if_pos hm, natDecimal, if_neg hn] at h
    exact absurd h.symm (digits_asString_ne_zero_str n hn)
  · rw [natDecimal, if_neg hm, natDecimal, if_pos hn] at h
    exact absurd h (digits_asString_ne_zero_str m hm)
  · rw [natDecimal, if_neg hm, natDecimal, if_neg hn] at h
    have hd : ((Nat.digits 10 m).map Nat.digitChar).reverse
        = ((Nat.digits 10 n).map Nat.digitChar).reverse :=
      congrArg String.data h
    have h3 : (Nat.digits 10 m).map Nat.digitChar = (Nat.digits 10 n).map Nat.digitChar := by
      have := congrArg List.reverse hd
      simpa using this
    have h4 : Nat.digits 10 m = Nat.digits 10 n :=
      map_digitChar_inj _ _ (fun d hd => Nat.digits_lt_base (by norm_num) hd)
        (fun d hd => Nat.digits_lt_base (by norm_num) hd) h3
    have h5 := Nat.ofDigits_digits 10 m
    rw [h4, Nat.ofDigits_digits] at h5
    exact h5.symm

theorem regionId_inj : Function.Injective (fun i : ℕ => "text-" ++ natDecimal i) := by
  intro a b h
  apply natDecimal_inj
  apply string_data_ext
  have hd := congrArg String.data h
  rw [string_data_append, string_data_append] at hd
  exact List.append_cancel_left hd

/-- Claim C7: a detection pass assigns region ids deterministically by
position in the input sequence, as "text-" followed by the decimal
index; these ids are pairwise distinct within one pass, and a later
pass replaces the detection set wholesale, so the resulting regions
depend only on the fresh input and never keep any region of the
previous pass. -/
theorem detection_ids_deterministic_unique (raw : List RawDetection)
    (s t : AppState) (b c : String) :
    (analyzeImageText raw).map (fun r => r.id)
      = (List.range raw.length).map (fun i => "text-" ++ natDecimal i) ∧
    ((analyzeImageText raw).map (fun r => r.id)).Nodup ∧
    (detectionPass s b raw).detectedTexts = analyzeImageText raw ∧
    (detectionPass s b raw).detectedTexts = (detectionPass t c raw).detectedTexts := by
  have h1 : (analyzeImageText raw).map (fun r => r.id)
      = (List.range raw.length).map (fun i => "text-" ++ natDecimal i) := by
    unfold analyzeImageText
    rw [List.map_map]
    rw [show (List.range raw.length) = raw.enum.map Prod.fst from (List.enum_map_fst raw).symm]
    rw [List.map_map]
    rfl
  refine ⟨h1, ?_, rfl, rfl⟩
  rw [h1]
  exact (List.nodup_range raw.length).map regionId_inj

end OnePicEdit
